import Mathlib

/-!
Shallow embedding of `src/python/audiosr_worker.py`: a long-lived worker
process that reads line-delimited JSON commands on stdin, manages a cached
model handle keyed by (model_name, device), invokes the audiosr collaborator,
and writes JSON responses on the captured original stdout.

JSON values that can appear as fields of a parsed command are modelled by
`Jv` (null, booleans, integers, floats as rationals, strings); Python
exceptions by `PyExc` (a kind plus the message text); the audiosr module and
the other effectful collaborators (`build_model`, `super_resolution`,
`sf.write`, the lazy imports) by an `Env` of explicit functions.  Observable
effects — collaborator invocations, file writes, protocol responses — are
recorded as an event list.
-/

namespace AudiosrWorker

/-- Kinds of Python exception the worker's control flow distinguishes. -/
inductive ExcTy
  | typeError
  | valueError
  | attributeError
  | importError
  | otherError
deriving DecidableEq, Repr

/-- A Python exception: its kind and its message text (`str(exc)`). -/
structure PyExc where
  ty : ExcTy
  msg : String
deriving DecidableEq, Repr

/-- `traceback.format_exc()`: the full diagnostic trace for an exception.
Modelled as a nonempty string determined by the exception. -/
def tracebackOf (e : PyExc) : String :=
  "Traceback (most recent call last):\n" ++ e.msg

/-- A JSON value as it can occur as a field of a parsed command object.
`json.loads` maps JSON null to Python `None` (`jnull`), numbers to `int` or
`float` (`jint` / `jfloat`, floats modelled as rationals), and strings to
`str`. -/
inductive Jv
  | jnull
  | jbool (b : Bool)
  | jint (n : Int)
  | jfloat (q : ℚ)
  | jstr (s : String)
deriving DecidableEq, Repr

/-- Python truthiness of a `Jv` (`if not x`). -/
def truthy : Jv → Bool
  | .jnull => false
  | .jbool b => b
  | .jint n => n != 0
  | .jfloat q => q != 0
  | .jstr s => s != ""

/-- The numeric value of a `Jv` when Python treats it as a number for `==`
(booleans compare equal to 0/1, ints and floats compare by value). -/
def numVal : Jv → Option ℚ
  | .jbool b => some (if b then 1 else 0)
  | .jint n => some n
  | .jfloat q => some q
  | _ => none

/-- Python `==` on the modelled values: numbers compare across types by
value, strings by content, `None` only to `None`. -/
def pyEq (a b : Jv) : Bool :=
  match numVal a, numVal b with
  | some x, some y => x == y
  | _, _ =>
    match a, b with
    | .jnull, .jnull => true
    | .jstr s, .jstr t => s == t
    | _, _ => false

/-- Python `==` between a local variable that starts as `None`
(modelled `Option Jv`) and a parsed field value. -/
def pyEqOpt : Option Jv → Jv → Bool
  | none, .jnull => true
  | none, _ => false
  | some u, v => pyEq u v

/-- A parsed JSON object (a Python dict): field names to values.  The JSON
decoder yields each key at most once. -/
abbrev Msg := List (String × Jv)

/-- `message.get(key)`: the value at `key`, or `None` (here `none`). -/
def Msg.get : Msg → String → Option Jv
  | [], _ => none
  | (k, v) :: rest, key => if k == key then some v else Msg.get rest key

/-- `message.get(key, default)`. -/
def Msg.getD (m : Msg) (key : String) (d : Jv) : Jv :=
  (m.get key).getD d

/-- Truncation toward zero, as Python `int()` applied to a float. -/
def pyTrunc (q : ℚ) : Int :=
  if 0 ≤ q then ⌊q⌋ else ⌈q⌉

/-- A signed decimal integer literal, as accepted by Python `int(str)`. -/
def parseIntStr (s : String) : Option Int :=
  s.toInt?

/-- A signed decimal literal with an optional fractional part, as accepted by
Python `float(str)` on the protocol's inputs. -/
def parseFloatStr (s : String) : Option ℚ :=
  let neg := s.startsWith "-"
  let t := if neg then s.drop 1 else s
  let signed : ℚ → ℚ := fun q => if neg then -q else q
  match t.splitOn "." with
  | [a] => (a.toNat?).map fun n => signed n
  | [a, b] =>
    match a.toNat?, b.toNat? with
    | some na, some nb => some (signed (na + (nb : ℚ) / (10 : ℚ) ^ b.length))
    | _, _ => none
  | _ => none

/-- Python `int(x)` on a parsed JSON field value. -/
def pyToInt : Jv → Except PyExc Int
  | .jint n => .ok n
  | .jbool b => .ok (if b then 1 else 0)
  | .jfloat q => .ok (pyTrunc q)
  | .jstr s =>
    match parseIntStr s with
    | some n => .ok n
    | none => .error ⟨.valueError, "invalid literal for int() with base 10: " ++ s⟩
  | .jnull => .error ⟨.typeError, "int() argument must be a string, a bytes-like object or a real number, not NoneType"⟩

/-- Python `float(x)` on a parsed JSON field value. -/
def pyToFloat : Jv → Except PyExc ℚ
  | .jint n => .ok n
  | .jbool b => .ok (if b then 1 else 0)
  | .jfloat q => .ok q
  | .jstr s =>
    match parseFloatStr s with
    | some q => .ok q
    | none => .error ⟨.valueError, "could not convert string to float: " ++ s⟩
  | .jnull => .error ⟨.typeError, "float() argument must be a string or a real number, not NoneType"⟩

/-- Python `str(x)` as used by the f-string for the unsupported-command
message. -/
def pyShow : Option Jv → String
  | none => "None"
  | some .jnull => "None"
  | some (.jbool b) => if b then "True" else "False"
  | some (.jint n) => toString n
  | some (.jfloat q) => toString q
  | some (.jstr s) => s

/-- An opaque loaded-model resource returned by `build_model`. -/
structure ModelHandle where
  id : Nat
deriving DecidableEq, Repr

/-- The waveform array returned by `super_resolution`, abstracted to its
shape together with which axis semantically carries channels.  The tensor to
numpy conversion (`waveform.cpu().numpy()`) preserves shape and is modelled
as the identity. -/
inductive Wave
  | oneD (len : Nat)
  | twoD (d0 d1 : Nat) (firstAxisChannel : Bool)
deriving DecidableEq, Repr

/-- numpy `.T` on a 2-D array: swaps the axes. -/
def Wave.transposed : Wave → Wave
  | .oneD l => .oneD l
  | .twoD d0 d1 f => .twoD d1 d0 (!f)

/-- The worker's layout normalisation before `sf.write`:
`if len(waveform.shape) > 1 and waveform.shape[0] < waveform.shape[1]:
waveform = waveform.T`. -/
def writeLayout (w : Wave) : Wave :=
  match w with
  | .oneD _ => w
  | .twoD d0 d1 _ => if d0 < d1 then w.transposed else w

/-- Number of channels the returned data semantically has. -/
def Wave.channels : Wave → Nat
  | .oneD _ => 1
  | .twoD d0 d1 f => if f then d0 else d1

/-- Number of time samples the returned data semantically has. -/
def Wave.timeLen : Wave → Nat
  | .oneD l => l
  | .twoD d0 d1 f => if f then d1 else d0

/-- Whether the array is laid out (time, channel): true for 1-D data and for
2-D data whose first axis is time. -/
def Wave.timeMajor : Wave → Bool
  | .oneD _ => true
  | .twoD _ _ f => !f

/-- Result of `audiosr.super_resolution`: either `None` (the collaborator
wrote the output itself) or a `(sampling_rate, waveform)` pair. -/
inductive InferRet
  | retNone
  | retPair (sr : Int) (w : Wave)
deriving DecidableEq, Repr

/-- The inference keyword arguments the worker assembles. -/
structure Params where
  ddim_steps : Int
  guidance_scale : ℚ
  seed : Option Int
deriving DecidableEq, Repr

/-- Decidable equality for fallible results, used to evaluate the embedding
at concrete inputs. -/
instance {e a : Type} [DecidableEq e] [DecidableEq a] : DecidableEq (Except e a) := fun x y =>
  match x, y with
  | .ok u, .ok v =>
    if h : u = v then isTrue (by rw [h]) else isFalse (by simp [h])
  | .error u, .error v =>
    if h : u = v then isTrue (by rw [h]) else isFalse (by simp [h])
  | .ok _, .error _ => isFalse (by simp)
  | .error _, .ok _ => isFalse (by simp)

/-- The audiosr collaborator module.  `acceptsNamed` states whether
`build_model`'s signature accepts the named-parameter call shape
(`model_name=..., device=...`); when it does not, the named call raises
`TypeError` at the call site without entering the body.  `build_model` is
the function body itself (run by whichever call shape reaches it), and
`super_resolution` the inference entry point. -/
structure Audiosr where
  acceptsNamed : Bool
  build_model : Jv → Jv → Except PyExc ModelHandle
  super_resolution : ModelHandle → Jv → Params → Except PyExc InferRet

/-- The effectful environment of one worker run: the outcomes of the lazy
imports, the collaborator module, and `sf.write` (`none` = success). -/
structure Env where
  audiosrImport : Option PyExc
  depsImport : Option PyExc
  collab : Audiosr
  sfWrite : Jv → Wave → Int → Option PyExc

/-- A protocol response: the JSON object passed to `send`. -/
structure Response where
  status : Bool          -- true = "ok", false = "error"
  message : String
  traceback : Option String
deriving DecidableEq, Repr

/-- Observable events of a run: responses written to the protocol stream,
collaborator build invocations (and named-call signature rejections),
inference invocations, and output-file writes. -/
inductive Event
  | resp (r : Response)
  | buildNamedSigFail
  | buildRun (nm dv : Jv) (positional : Bool)
  | inferRun (h : ModelHandle) (input : Jv) (p : Params)
  | fileWrite (path : Jv) (w : Wave) (sr : Int)
deriving DecidableEq, Repr

/-- The responses among a list of events, in order. -/
def responsesOf (evs : List Event) : List Response :=
  evs.filterMap fun e =>
    match e with
    | .resp r => some r
    | _ => none

/-- How many times the collaborator's build body was actually entered. -/
def buildRunsOf (evs : List Event) : Nat :=
  evs.countP fun e =>
    match e with
    | .buildRun _ _ _ => true
    | _ => false

/-- How many inference invocations the events record. -/
def inferRunsOf (evs : List Event) : Nat :=
  evs.countP fun e =>
    match e with
    | .inferRun _ _ _ => true
    | _ => false

/-- The file writes among a list of events, in order. -/
def writesOf (evs : List Event) : List (Jv × Wave × Int) :=
  evs.filterMap fun e =>
    match e with
    | .fileWrite p w sr => some (p, w, sr)
    | _ => none

/-- The mutable locals of `main` that survive across commands:
`audiosr_module` (abstracted to whether the import succeeded), `model`,
`model_name` and `device`. -/
structure WState where
  audiosrLoaded : Bool
  model : Option ModelHandle
  model_name : Option Jv
  device : Option Jv
deriving DecidableEq, Repr

/-- The initial state: all four locals are `None`. -/
def initState : WState := ⟨false, none, none, none⟩

/-- `load_model`: try `build_model(model_name=..., device=...)`; on
`TypeError` — whether raised by the call machinery for a signature mismatch
or from inside the body — retry `build_model(requested, requested)`
positionally.  Returns the build events and the result. -/
def load_model (a : Audiosr) (rm rd : Jv) : List Event × Except PyExc ModelHandle :=
  let named : List Event × Except PyExc ModelHandle :=
    if a.acceptsNamed then
      ([.buildRun rm rd false], a.build_model rm rd)
    else
      ([.buildNamedSigFail], .error ⟨.typeError, "build_model() got an unexpected keyword argument"⟩)
  match named with
  | (evs, .ok h) => (evs, .ok h)
  | (evs, .error e) =>
    if e.ty = .typeError then
      (evs ++ [.buildRun rm rd true], a.build_model rm rd)
    else
      (evs, .error e)

/-- The lazy import block guarded by `if audiosr_module is None`: on first
use import audiosr (binding `audiosr_module`), then torchaudio, soundfile
and torch, and install the soundfile-backed `torchaudio.load` patch.  If the
audiosr import itself fails the guard variable stays unbound and a later
command retries the block; if a dependency import fails afterwards,
`audiosr_module` is already bound, so the block is skipped from then on. -/
def ensureImports (env : Env) (s : WState) : WState × Option PyExc :=
  if s.audiosrLoaded then (s, none)
  else
    match env.audiosrImport with
    | some e => (s, some e)
    | none =>
      let s := { s with audiosrLoaded := true }
      match env.depsImport with
      | some e => (s, some e)
      | none => (s, none)

/-- The cache check and (on miss) rebuild:
`if model is None or model_name != requested_model or device != requested_device`
— build via `load_model` and assign `model`, `model_name`, `device`; on a
cache hit reuse the cached handle.  If `load_model` raises, none of the three
locals is assigned. -/
def ensureModel (env : Env) (s : WState) (rm rd : Jv) : WState × List Event × Except PyExc ModelHandle :=
  let build : WState × List Event × Except PyExc ModelHandle :=
    match load_model env.collab rm rd with
    | (evs, .ok h) =>
      ({ s with model := some h, model_name := some rm, device := some rd }, evs, .ok h)
    | (evs, .error e) => (s, evs, .error e)
  match s.model with
  | none => build
  | some h =>
    if pyEqOpt s.model_name rm && pyEqOpt s.device rd then (s, [], .ok h)
    else build

/-- The keyword-argument assembly:
`ddim_steps = int(message.get("ddim_steps", 100))`,
`guidance_scale = float(message.get("guidance_scale", 3.5))`, and
`seed = int(message["seed"])` only when `"seed" in message`. -/
def assembleKwargs (m : Msg) : Except PyExc Params := do
  let d ← pyToInt (m.getD "ddim_steps" (.jint 100))
  let g ← pyToFloat (m.getD "guidance_scale" (.jfloat (7 / 2)))
  match m.get "seed" with
  | some v =>
    let sd ← pyToInt v
    return ⟨d, g, some sd⟩
  | none => return ⟨d, g, none⟩

/-- Inference and persistence:
`sr_rate, waveform = audiosr_module.super_resolution(model, input_path, **kwargs)`
— unpacking a `None` return raises `TypeError` — then layout normalisation
and `sf.write(output_path, waveform, sr_rate)`.  The worker locals are not
touched by this stage. -/
def inferAndWrite (env : Env) (h : ModelHandle) (ip op : Jv) (p : Params) :
    List Event × Option PyExc :=
  match env.collab.super_resolution h ip p with
  | .error e => ([.inferRun h ip p], some e)
  | .ok .retNone =>
    ([.inferRun h ip p], some ⟨.typeError, "cannot unpack non-iterable NoneType object"⟩)
  | .ok (.retPair sr w) =>
    let w2 := writeLayout w
    match env.sfWrite op w2 sr with
    | some e => ([.inferRun h ip p], some e)
    | none => ([.inferRun h ip p, .fileWrite op w2 sr], none)

/-- The body of the `try` block handling a `process` command, in source
order: lazy imports, `model_name`/`device` presence check, cache consult and
rebuild, `input`/`output` presence check, kwarg assembly, inference,
persistence, and the final `send({"status": "ok", "message": "done"})`.
Returns the updated locals, the events, and the exception that escaped the
body, if any. -/
def processInner (env : Env) (s : WState) (m : Msg) : WState × List Event × Option PyExc :=
  match ensureImports env s with
  | (s1, some e) => (s1, [], some e)
  | (s1, none) =>
    let rm := (m.get "model_name").getD .jnull
    let rd := (m.get "device").getD .jnull
    if !truthy rm || !truthy rd then
      (s1, [], some ⟨.valueError, "model_name または device が指定されていません"⟩)
    else
      match ensureModel env s1 rm rd with
      | (s2, ev1, .error e) => (s2, ev1, some e)
      | (s2, ev1, .ok h) =>
        let ip := (m.get "input").getD .jnull
        let op := (m.get "output").getD .jnull
        if !truthy ip || !truthy op then
          (s2, ev1, some ⟨.valueError, "input または output が指定されていません"⟩)
        else
          match assembleKwargs m with
          | .error e => (s2, ev1, some e)
          | .ok p =>
            match inferAndWrite env h ip op p with
            | (ev2, some e) => (s2, ev1 ++ ev2, some e)
            | (ev2, none) => (s2, ev1 ++ ev2 ++ [.resp ⟨true, "done", none⟩], none)

/-- The exception boundary around the Process Procedure:
`except Exception as exc: send({"status": "error", "message": str(exc),
"traceback": traceback.format_exc()})`. -/
def processCmd (env : Env) (s : WState) (m : Msg) : WState × List Event :=
  match processInner env s m with
  | (s', evs, none) => (s', evs)
  | (s', evs, some e) => (s', evs ++ [.resp ⟨false, e.msg, some (tracebackOf e)⟩])

/-- An input line as the dispatcher observes it: a falsy read
(`if not line: break`), a line that strips to empty, a line `json.loads`
rejects (with the exception text), a line that parses to a non-object value
(whose `.get` attribute access then raises `AttributeError`), or a parsed
object. -/
inductive InLine
  | rawEmpty
  | blank
  | badJson (errText : String)
  | nonObj (typeName : String)
  | obj (m : Msg)
deriving DecidableEq, Repr

/-- Whether `message.get("command")` Python-equals the string `s`. -/
def cmdIs (c : Option Jv) (s : String) : Bool :=
  match c with
  | some v => pyEq v (.jstr s)
  | none => false

/-- What the loop does after handling one line. -/
inductive Ctl
  | next
  | stop
  | crash (e : PyExc)
deriving DecidableEq, Repr

/-- One iteration of the dispatcher loop body, on one input line. -/
def stepLine (env : Env) (s : WState) (l : InLine) : WState × List Event × Ctl :=
  match l with
  | .rawEmpty => (s, [], .stop)
  | .blank => (s, [], .next)
  | .badJson t =>
    (s, [.resp ⟨false, "JSON解析に失敗しました: " ++ t, none⟩], .next)
  | .nonObj tn =>
    (s, [], .crash ⟨.attributeError, tn ++ " object has no attribute get"⟩)
  | .obj m =>
    let cmd := m.get "command"
    if cmdIs cmd "ping" then (s, [.resp ⟨true, "ready", none⟩], .next)
    else if cmdIs cmd "shutdown" then (s, [.resp ⟨true, "shutdown", none⟩], .stop)
    else if cmdIs cmd "process" then
      let (s', evs) := processCmd env s m
      (s', evs, .next)
    else (s, [.resp ⟨false, "未対応のコマンドです: " ++ pyShow cmd, none⟩], .next)

/-- Outcome of running the dispatcher loop on a list of input lines. -/
structure RunOut where
  finalState : WState
  events : List Event
  leftover : List InLine
  crashed : Option PyExc
deriving Repr

/-- `for line in sys.stdin`: handle lines in order until `break`, a crash, or
end of input.  `leftover` holds the lines never read. -/
def runLoop (env : Env) : WState → List InLine → RunOut
  | s, [] => ⟨s, [], [], none⟩
  | s, l :: ls =>
    match stepLine env s l with
    | (s', evs, .next) =>
      let r := runLoop env s' ls
      ⟨r.finalState, evs ++ r.events, r.leftover, r.crashed⟩
    | (s', evs, .stop) => ⟨s', evs, ls, none⟩
    | (s', evs, .crash e) => ⟨s', evs, ls, some e⟩

/-- Whether a stream object has a `reconfigure` attribute. -/
structure StreamCaps where
  hasReconfigure : Bool
deriving DecidableEq, Repr

/-- The startup reconfiguration block: `sys.stdin.reconfigure(...)` and
`sys.stderr.reconfigure(...)` are called unconditionally (an object without
the attribute raises `AttributeError`), while `_original_stdout` is guarded
by `hasattr(_original_stdout, "reconfigure")`. -/
def startupReconfig (stdinS stderrS origStdout : StreamCaps) : Option PyExc :=
  if !stdinS.hasReconfigure then
    some ⟨.attributeError, "stdin object has no attribute reconfigure"⟩
  else if !stderrS.hasReconfigure then
    some ⟨.attributeError, "stderr object has no attribute reconfigure"⟩
  else
    none

/-- `main()` as observed from outside: startup, then the loop; the returned
`Except` is `ok 0` on a normal return and `error e` when an exception
escapes `main`. -/
def mainRun (env : Env) (stdinS stderrS origStdout : StreamCaps) (lines : List InLine) :
    List Event × List InLine × Except PyExc Int :=
  match startupReconfig stdinS stderrS origStdout with
  | some e => ([], lines, .error e)
  | none =>
    let r := runLoop env initState lines
    match r.crashed with
    | some e => (r.events, r.leftover, .error e)
    | none => (r.events, r.leftover, .ok 0)

/-- The `__main__` wrapper: `sys.exit(main())`, with any escaping exception
printed to stderr and turned into exit status 1. -/
def runWorker (env : Env) (stdinS stderrS origStdout : StreamCaps) (lines : List InLine) :
    List Event × List InLine × Int :=
  match mainRun env stdinS stderrS origStdout lines with
  | (evs, left, .ok code) => (evs, left, code)
  | (evs, left, .error _) => (evs, left, 1)

/-! ## Derived predicates and concrete fixtures -/

/-- The Model Cache invariant: either no model is cached and both key halves
are unset, or a handle is cached together with a complete key. -/
def cacheConsistent (s : WState) : Prop :=
  (s.model = none ∧ s.model_name = none ∧ s.device = none) ∨
  (∃ h rm rd, s.model = some h ∧ s.model_name = some rm ∧ s.device = some rd)

/-- Whether handling this line leaves the loop in its reading state: false
for a falsy read (`break`), for a non-object JSON line (uncaught
`AttributeError`), and for a shutdown command (`break`). -/
def keepsLooping : InLine → Bool
  | .rawEmpty => false
  | .nonObj _ => false
  | .obj m => !cmdIs (m.get "command") "shutdown"
  | _ => true

/-- A collaborator whose build accepts named parameters and always succeeds,
and whose inference returns a fixed `(rate, waveform)` pair. -/
def okCollab : Audiosr where
  acceptsNamed := true
  build_model := fun _ _ => .ok ⟨1⟩
  super_resolution := fun _ _ _ => .ok (.retPair 48000 (.twoD 1 100 true))

/-- An environment where imports, builds, inference and writes all succeed. -/
def okEnv : Env where
  audiosrImport := none
  depsImport := none
  collab := okCollab
  sfWrite := fun _ _ _ => none

/-- A well-formed `process` command object. -/
def mkProc (n d i o : String) : Msg :=
  [("command", .jstr "process"), ("model_name", .jstr n), ("device", .jstr d),
   ("input", .jstr i), ("output", .jstr o)]

/-- The `{"command": "ping"}` object. -/
def pingMsg : Msg := [("command", .jstr "ping")]

/-- The `{"command": "shutdown"}` object. -/
def shutMsg : Msg := [("command", .jstr "shutdown")]

/-! ## Helper lemmas -/

lemma responsesOf_append (a b : List Event) :
    responsesOf (a ++ b) = responsesOf a ++ responsesOf b := by
  simp [responsesOf]

lemma buildRunsOf_append (a b : List Event) :
    buildRunsOf (a ++ b) = buildRunsOf a + buildRunsOf b := by
  simp [buildRunsOf, List.countP_append]

lemma inferRunsOf_append (a b : List Event) :
    inferRunsOf (a ++ b) = inferRunsOf a + inferRunsOf b := by
  simp [inferRunsOf, List.countP_append]

lemma writesOf_append (a b : List Event) :
    writesOf (a ++ b) = writesOf a ++ writesOf b := by
  simp [writesOf]

lemma truthy_jstr (s : String) : truthy (.jstr s) = true ↔ s ≠ "" := by
  simp [truthy]

lemma responsesOf_single (r : Response) : responsesOf [Event.resp r] = [r] := rfl

/-- A command value Python-equal to a string literal is that string. -/
lemma cmdIs_eq_jstr {c : Option Jv} {s : String} (h : cmdIs c s = true) :
    c = some (.jstr s) := by
  match c with
  | none => simp [cmdIs] at h
  | some v =>
    cases v with
    | jstr t =>
      simp only [cmdIs, pyEq, numVal] at h
      simp_all
    | jnull => simp [cmdIs, pyEq, numVal] at h
    | jbool b => simp [cmdIs, pyEq, numVal] at h
    | jint n => simp [cmdIs, pyEq, numVal] at h
    | jfloat q => simp [cmdIs, pyEq, numVal] at h

/-- `load_model` emits only build events: no responses, no inference
invocations, no file writes. -/
lemma load_model_events (a : Audiosr) (rm rd : Jv) :
    responsesOf (load_model a rm rd).1 = [] ∧
    inferRunsOf (load_model a rm rd).1 = 0 ∧
    writesOf (load_model a rm rd).1 = [] := by
  unfold load_model
  cases ha : a.acceptsNamed <;>
    simp only [ha, Bool.false_eq_true, if_false, if_true] <;>
    [skip; cases hb : a.build_model rm rd] <;>
    simp [responsesOf, inferRunsOf, writesOf, buildRunsOf] <;>
    split <;>
    simp [responsesOf, inferRunsOf, writesOf]

/-- When the named call shape is accepted and the body succeeds, exactly one
build runs. -/
lemma load_model_named_ok {a : Audiosr} {rm rd : Jv} {h : ModelHandle}
    (ha : a.acceptsNamed = true) (hb : a.build_model rm rd = .ok h) :
    load_model a rm rd = ([.buildRun rm rd false], .ok h) := by
  unfold load_model
  simp [ha, hb]

/-- `inferAndWrite` never emits build events or responses-other-than-none
before the boundary; its events are the inference call and, on the success
path, the file write. -/
lemma inferAndWrite_events (env : Env) (h : ModelHandle) (ip op : Jv) (p : Params) :
    responsesOf (inferAndWrite env h ip op p).1 = [] ∧
    buildRunsOf (inferAndWrite env h ip op p).1 = 0 := by
  unfold inferAndWrite
  cases hs : env.collab.super_resolution h ip p with
  | error e => simp [responsesOf, buildRunsOf]
  | ok r =>
    cases r with
    | retNone => simp [responsesOf, buildRunsOf]
    | retPair sr w =>
      cases hw : env.sfWrite op (writeLayout w) sr <;>
        simp [hw, responsesOf, buildRunsOf]

/-- When the cache hits (`model` bound and both key halves Python-equal to
the request), `ensureModel` reuses the handle and performs no build. -/
lemma ensureModel_hit (env : Env) {s : WState} {rm rd : Jv} {h : ModelHandle}
    (hm : s.model = some h)
    (h1 : pyEqOpt s.model_name rm = true) (h2 : pyEqOpt s.device rd = true) :
    ensureModel env s rm rd = (s, [], .ok h) := by
  unfold ensureModel
  simp [hm, h1, h2]

/-- On a cache miss with a successful build, `ensureModel` installs the
handle and both key halves together. -/
lemma ensureModel_miss_ok (env : Env) {s : WState} {rm rd : Jv}
    {evs : List Event} {h : ModelHandle}
    (hmiss : s.model = none ∨ pyEqOpt s.model_name rm = false ∨ pyEqOpt s.device rd = false)
    (hl : load_model env.collab rm rd = (evs, .ok h)) :
    ensureModel env s rm rd =
      ({ s with model := some h, model_name := some rm, device := some rd }, evs, .ok h) := by
  unfold ensureModel
  cases hsm : s.model with
  | none => simp [hl]
  | some h0 =>
    rcases hmiss with hmiss | hmiss | hmiss
    · rw [hsm] at hmiss; cases hmiss
    · simp [hl, hmiss]
    · simp [hl, hmiss]

/-- If the build raises, `ensureModel` leaves every worker local exactly as
it was. -/
lemma ensureModel_error_state {env : Env} {s : WState} {rm rd : Jv}
    {evs : List Event} {e : PyExc}
    (hl : load_model env.collab rm rd = (evs, .error e)) :
    (ensureModel env s rm rd).1 = s := by
  unfold ensureModel
  cases hsm : s.model with
  | none => simp [hsm, hl]
  | some h0 =>
    by_cases hk : (pyEqOpt s.model_name rm && pyEqOpt s.device rd) = true <;>
      simp [hsm, hl, hk]

/-- `ensureModel` either leaves the three cache locals unchanged or installs
a complete `(handle, model_name, device)` triple, all together. -/
lemma ensureModel_state (env : Env) (s : WState) (rm rd : Jv) :
    ((ensureModel env s rm rd).1.model = s.model ∧
     (ensureModel env s rm rd).1.model_name = s.model_name ∧
     (ensureModel env s rm rd).1.device = s.device) ∨
    (∃ h, (ensureModel env s rm rd).1.model = some h ∧
      (ensureModel env s rm rd).1.model_name = some rm ∧
      (ensureModel env s rm rd).1.device = some rd) := by
  unfold ensureModel
  cases hsm : s.model with
  | none =>
    cases hl : load_model env.collab rm rd with
    | mk evs r =>
      cases r with
      | ok h => exact Or.inr ⟨h, by simp [hsm, hl]⟩
      | error e => exact Or.inl (by simp [hsm, hl])
  | some h0 =>
    by_cases hk : (pyEqOpt s.model_name rm && pyEqOpt s.device rd) = true
    · exact Or.inl (by simp [hsm, hk])
    · cases hl : load_model env.collab rm rd with
      | mk evs r =>
        cases r with
        | ok h => exact Or.inr ⟨h, by simp [hsm, hk, hl]⟩
        | error e => exact Or.inl (by simp [hsm, hk, hl])

/-- `ensureModel` emits only build events. -/
lemma ensureModel_events (env : Env) (s : WState) (rm rd : Jv) :
    responsesOf (ensureModel env s rm rd).2.1 = [] ∧
    inferRunsOf (ensureModel env s rm rd).2.1 = 0 ∧
    writesOf (ensureModel env s rm rd).2.1 = [] := by
  unfold ensureModel
  cases hsm : s.model with
  | none =>
    cases hl : load_model env.collab rm rd with
    | mk evs r =>
      have := load_model_events env.collab rm rd
      rw [hl] at this
      cases r <;> simpa using this
  | some h0 =>
    by_cases hk : (pyEqOpt s.model_name rm && pyEqOpt s.device rd) = true
    · simp [hk, responsesOf, inferRunsOf, writesOf]
    · cases hl : load_model env.collab rm rd with
      | mk evs r =>
        have := load_model_events env.collab rm rd
        rw [hl] at this
        cases r <;> simp [hk] <;> simpa using this

/-- `ensureImports` never touches the cache locals. -/
lemma ensureImports_cache (env : Env) (s : WState) :
    (ensureImports env s).1.model = s.model ∧
    (ensureImports env s).1.model_name = s.model_name ∧
    (ensureImports env s).1.device = s.device := by
  unfold ensureImports
  by_cases hld : s.audiosrLoaded = true
  · simp [hld]
  · cases ha : env.audiosrImport with
    | some e => simp [hld, ha]
    | none =>
      cases hd : env.depsImport with
      | some e => simp [hld, ha, hd]
      | none => simp [hld, ha, hd]

/-- When both lazy imports succeed, the import stage just marks the module
loaded (a no-op if it already was). -/
lemma ensureImports_ok {env : Env} (s : WState)
    (ha : env.audiosrImport = none) (hd : env.depsImport = none) :
    ensureImports env s = ({ s with audiosrLoaded := true }, none) := by
  unfold ensureImports
  by_cases hld : s.audiosrLoaded = true
  · cases s
    simp_all
  · simp [hld, ha, hd]

/-- The try-block body emits no response when it raises, and exactly the
single `ok/done` response when it returns normally. -/
lemma processInner_resps (env : Env) (s : WState) (m : Msg) :
    (∀ e, (processInner env s m).2.2 = some e →
      responsesOf (processInner env s m).2.1 = []) ∧
    ((processInner env s m).2.2 = none →
      responsesOf (processInner env s m).2.1 = [⟨true, "done", none⟩]) := by
  unfold processInner
  rcases hI : ensureImports env s with ⟨s1, _ | e⟩
  case mk.some => simp [responsesOf]
  case mk.none =>
  simp only []
  by_cases hv : (!truthy ((m.get "model_name").getD .jnull) ||
      !truthy ((m.get "device").getD .jnull)) = true
  · simp [hv, responsesOf]
  · rcases hE : ensureModel env s1 ((m.get "model_name").getD .jnull)
      ((m.get "device").getD .jnull) with ⟨s2, ev1, r⟩
    have hEv := ensureModel_events env s1 ((m.get "model_name").getD .jnull)
      ((m.get "device").getD .jnull)
    rw [hE] at hEv
    have hEv1 : responsesOf ev1 = [] := hEv.1
    cases r with
    | error e => simp [hv, hE, hEv1]
    | ok h =>
      by_cases hp : (!truthy ((m.get "input").getD .jnull) ||
          !truthy ((m.get "output").getD .jnull)) = true
      · simp [hv, hE, hp, hEv1]
      · cases hK : assembleKwargs m with
        | error e => simp [hv, hE, hp, hK, hEv1]
        | ok p =>
          rcases hW : inferAndWrite env h ((m.get "input").getD .jnull)
            ((m.get "output").getD .jnull) p with ⟨ev2, oe⟩
          have hWv := inferAndWrite_events env h ((m.get "input").getD .jnull)
            ((m.get "output").getD .jnull) p
          rw [hW] at hWv
          have hWv1 : responsesOf ev2 = [] := hWv.1
          cases oe with
          | none =>
            simp [hv, hE, hp, hK, hW, responsesOf_append, hEv1, hWv1, responsesOf_single]
          | some e =>
            simp [hv, hE, hp, hK, hW, responsesOf_append, hEv1, hWv1]

lemma inferRunsOf_zero_not_mem {evs : List Event} (h : inferRunsOf evs = 0)
    {a : ModelHandle} {b : Jv} {c : Params} (hm : Event.inferRun a b c ∈ evs) : False := by
  have := List.countP_eq_zero.mp h _ hm
  simp at this

/-- Any inference event recorded by `inferAndWrite` carries exactly the
parameter record it was invoked with. -/
lemma inferAndWrite_inferRun (env : Env) (h0 : ModelHandle) (ip0 op0 : Jv) (p0 : Params)
    {h : ModelHandle} {ip : Jv} {p : Params}
    (hm : Event.inferRun h ip p ∈ (inferAndWrite env h0 ip0 op0 p0).1) : p = p0 := by
  unfold inferAndWrite at hm
  cases hs : env.collab.super_resolution h0 ip0 p0 with
  | error e =>
    rw [hs] at hm
    simp at hm
    exact hm.2.2
  | ok r =>
    cases r with
    | retNone =>
      rw [hs] at hm
      simp at hm
      exact hm.2.2
    | retPair sr w =>
      rw [hs] at hm
      cases hw : env.sfWrite op0 (writeLayout w) sr
      all_goals simp only [hw] at hm
      all_goals simp at hm
      all_goals exact hm.2.2

/-- The try-block body either leaves the three cache locals untouched or
installs a complete handle-plus-key triple in one step. -/
lemma processInner_state (env : Env) (s : WState) (m : Msg) :
    ((processInner env s m).1.model = s.model ∧
     (processInner env s m).1.model_name = s.model_name ∧
     (processInner env s m).1.device = s.device) ∨
    (∃ h rm rd, (processInner env s m).1.model = some h ∧
      (processInner env s m).1.model_name = some rm ∧
      (processInner env s m).1.device = some rd) := by
  unfold processInner
  rcases hI : ensureImports env s with ⟨s1, oi⟩
  have hIc := ensureImports_cache env s
  rw [hI] at hIc
  cases oi with
  | some e => exact Or.inl hIc
  | none =>
  simp only []
  by_cases hv : (!truthy ((m.get "model_name").getD .jnull) ||
      !truthy ((m.get "device").getD .jnull)) = true
  · simp only [hv, if_true]
    exact Or.inl hIc
  · simp only [hv, if_false]
    rcases hE : ensureModel env s1 ((m.get "model_name").getD .jnull)
      ((m.get "device").getD .jnull) with ⟨s2, ev1, r⟩
    have hEs := ensureModel_state env s1 ((m.get "model_name").getD .jnull)
      ((m.get "device").getD .jnull)
    rw [hE] at hEs
    have hs2 : (s2.model = s.model ∧ s2.model_name = s.model_name ∧ s2.device = s.device) ∨
        (∃ h, s2.model = some h ∧
          s2.model_name = some ((m.get "model_name").getD .jnull) ∧
          s2.device = some ((m.get "device").getD .jnull)) := by
      rcases hEs with ⟨h1, h2, h3⟩ | ⟨h, h1, h2, h3⟩
      · exact Or.inl ⟨h1.trans hIc.1, h2.trans hIc.2.1, h3.trans hIc.2.2⟩
      · exact Or.inr ⟨h, h1, h2, h3⟩
    have hgoal : ∀ s' : WState, s' = s2 →
        ((s'.model = s.model ∧ s'.model_name = s.model_name ∧ s'.device = s.device) ∨
        (∃ h rm rd, s'.model = some h ∧ s'.model_name = some rm ∧ s'.device = some rd)) := by
      rintro s' rfl
      rcases hs2 with h | ⟨h, h1, h2, h3⟩
      · exact Or.inl h
      · exact Or.inr ⟨h, _, _, h1, h2, h3⟩
    cases r with
    | error e => exact hgoal s2 rfl
    | ok h =>
      by_cases hp : (!truthy ((m.get "input").getD .jnull) ||
          !truthy ((m.get "output").getD .jnull)) = true
      · simp only [hp, if_true]
        exact hgoal s2 rfl
      · simp only [hp, if_false]
        cases hK : assembleKwargs m with
        | error e => exact hgoal s2 rfl
        | ok p =>
          rcases hW : inferAndWrite env h ((m.get "input").getD .jnull)
            ((m.get "output").getD .jnull) p with ⟨ev2, oe⟩
          cases oe with
          | none => simp only []; rw [hW]; exact hgoal s2 rfl
          | some e => simp only []; rw [hW]; exact hgoal s2 rfl

lemma buildRunsOf_resp (r : Response) : buildRunsOf [Event.resp r] = 0 := rfl

lemma inferRunsOf_resp (r : Response) : inferRunsOf [Event.resp r] = 0 := rfl

/-- Once the model is resolved (imports and validation passed, handle
obtained), the rest of the Process Procedure neither changes the worker
locals nor runs further builds, whatever inference and the write do. -/
lemma processInner_after_model (env : Env) (s s1 s2 : WState) (m : Msg)
    (ev1 : List Event) (h : ModelHandle)
    (hI : ensureImports env s = (s1, none))
    (hv : (!truthy ((m.get "model_name").getD .jnull) ||
      !truthy ((m.get "device").getD .jnull)) = false)
    (hE : ensureModel env s1 ((m.get "model_name").getD .jnull)
      ((m.get "device").getD .jnull) = (s2, ev1, .ok h)) :
    (processInner env s m).1 = s2 ∧
    buildRunsOf (processInner env s m).2.1 = buildRunsOf ev1 := by
  unfold processInner
  rw [hI]
  simp only []
  by_cases hp : (!truthy ((m.get "input").getD .jnull) ||
      !truthy ((m.get "output").getD .jnull)) = true
  · simp [hv, hE, hp]
  · cases hK : assembleKwargs m with
    | error e => simp [hv, hE, hp, hK]
    | ok p =>
      rcases hW : inferAndWrite env h ((m.get "input").getD .jnull)
        ((m.get "output").getD .jnull) p with ⟨ev2, oe⟩
      have hWv := inferAndWrite_events env h ((m.get "input").getD .jnull)
        ((m.get "output").getD .jnull) p
      rw [hW] at hWv
      have hWb : buildRunsOf ev2 = 0 := hWv.2
      cases oe with
      | none => simp [hv, hE, hp, hK, hW, buildRunsOf_append, hWb, buildRunsOf_resp]
      | some e => simp [hv, hE, hp, hK, hW, buildRunsOf_append, hWb]

/-- If the keyword-argument coercion fails, the try-block body raises and no
inference is ever invoked for the command. -/
lemma processInner_kwargs_error (env : Env) (s : WState) (m : Msg) {e : PyExc}
    (hK : assembleKwargs m = .error e) :
    (processInner env s m).2.2 ≠ none ∧
    inferRunsOf (processInner env s m).2.1 = 0 := by
  unfold processInner
  rcases hI : ensureImports env s with ⟨s1, oi⟩
  cases oi with
  | some e0 => simp [inferRunsOf]
  | none =>
  simp only []
  by_cases hv : (!truthy ((m.get "model_name").getD .jnull) ||
      !truthy ((m.get "device").getD .jnull)) = true
  · simp [hv, inferRunsOf]
  · rcases hE : ensureModel env s1 ((m.get "model_name").getD .jnull)
      ((m.get "device").getD .jnull) with ⟨s2, ev1, r⟩
    have hEv := ensureModel_events env s1 ((m.get "model_name").getD .jnull)
      ((m.get "device").getD .jnull)
    rw [hE] at hEv
    have hEi : inferRunsOf ev1 = 0 := hEv.2.1
    cases r with
    | error e0 => simp [hv, hE, hEi]
    | ok h =>
      by_cases hp : (!truthy ((m.get "input").getD .jnull) ||
          !truthy ((m.get "output").getD .jnull)) = true
      · simp [hv, hE, hp, hEi]
      · simp [hv, hE, hp, hK, hEi]

/-- Every inference invocation recorded while handling a command used
exactly the parameter record the kwarg assembly produced. -/
lemma processInner_inferRun (env : Env) (s : WState) (m : Msg)
    {h : ModelHandle} {ip : Jv} {p : Params}
    (hm : Event.inferRun h ip p ∈ (processInner env s m).2.1) :
    assembleKwargs m = .ok p := by
  unfold processInner at hm
  rcases hI : ensureImports env s with ⟨s1, oi⟩
  rw [hI] at hm
  cases oi with
  | some e0 => simp at hm
  | none =>
  simp only [] at hm
  by_cases hv : (!truthy ((m.get "model_name").getD .jnull) ||
      !truthy ((m.get "device").getD .jnull)) = true
  · simp [hv] at hm
  · rcases hE : ensureModel env s1 ((m.get "model_name").getD .jnull)
      ((m.get "device").getD .jnull) with ⟨s2, ev1, r⟩
    rw [hE] at hm
    have hEv := ensureModel_events env s1 ((m.get "model_name").getD .jnull)
      ((m.get "device").getD .jnull)
    rw [hE] at hEv
    have hEi : inferRunsOf ev1 = 0 := hEv.2.1
    cases r with
    | error e0 =>
      simp [hv] at hm
      exact absurd hm (fun hmem => inferRunsOf_zero_not_mem hEi hmem)
    | ok hdl =>
      by_cases hp : (!truthy ((m.get "input").getD .jnull) ||
          !truthy ((m.get "output").getD .jnull)) = true
      · simp [hv, hp] at hm
        exact absurd hm (fun hmem => inferRunsOf_zero_not_mem hEi hmem)
      · cases hK : assembleKwargs m with
        | error e0 =>
          simp [hv, hp, hK] at hm
          exact absurd hm (fun hmem => inferRunsOf_zero_not_mem hEi hmem)
        | ok p0 =>
          rcases hW : inferAndWrite env hdl ((m.get "input").getD .jnull)
            ((m.get "output").getD .jnull) p0 with ⟨ev2, oe⟩
          cases oe with
          | none =>
            simp [hv, hp, hK, hW] at hm
            rcases hm with hm | hm
            · exact absurd hm (fun hmem => inferRunsOf_zero_not_mem hEi hmem)
            · have hp0 : p = p0 := by
                have : Event.inferRun h ip p ∈
                    (inferAndWrite env hdl ((m.get "input").getD .jnull)
                      ((m.get "output").getD .jnull) p0).1 := by
                  rw [hW]; exact hm
                exact inferAndWrite_inferRun env hdl _ _ p0 this
              rw [hp0]
          | some e0 =>
            simp [hv, hp, hK, hW] at hm
            rcases hm with hm | hm
            · exact absurd hm (fun hmem => inferRunsOf_zero_not_mem hEi hmem)
            · have hp0 : p = p0 := by
                have : Event.inferRun h ip p ∈
                    (inferAndWrite env hdl ((m.get "input").getD .jnull)
                      ((m.get "output").getD .jnull) p0).1 := by
                  rw [hW]; exact hm
                exact inferAndWrite_inferRun env hdl _ _ p0 this
              rw [hp0]

/-- Dispatch of a `process` command: the Process Procedure runs and the loop
always proceeds to the next line. -/
lemma stepLine_process {env : Env} {s : WState} {m : Msg}
    (hc : cmdIs (m.get "command") "process" = true) :
    stepLine env s (.obj m) = ((processCmd env s m).1, (processCmd env s m).2, .next) := by
  have hcmd := cmdIs_eq_jstr hc
  unfold stepLine
  simp only []
  rw [hcmd]
  simp [cmdIs, pyEq, numVal]

/-- Dispatch of a `shutdown` command: emit the shutdown response and leave
the loop. -/
lemma stepLine_shutdown {env : Env} {s : WState} {m : Msg}
    (hc : cmdIs (m.get "command") "shutdown" = true) :
    stepLine env s (.obj m) = (s, [.resp ⟨true, "shutdown", none⟩], .stop) := by
  have hcmd := cmdIs_eq_jstr hc
  unfold stepLine
  simp only []
  rw [hcmd]
  simp [cmdIs, pyEq, numVal]

/-- A line that `keepsLooping` is handled with control returning to the
read loop. -/
lemma stepLine_keeps {env : Env} {s : WState} {l : InLine}
    (hk : keepsLooping l = true) :
    ∃ s' evs, stepLine env s l = (s', evs, .next) := by
  cases l with
  | rawEmpty => simp [keepsLooping] at hk
  | blank => exact ⟨s, [], rfl⟩
  | badJson t => exact ⟨s, _, rfl⟩
  | nonObj tn => simp [keepsLooping] at hk
  | obj m =>
    have hks : cmdIs (m.get "command") "shutdown" = false := by
      simpa [keepsLooping] using hk
    unfold stepLine
    by_cases hping : cmdIs (m.get "command") "ping" = true
    · exact ⟨s, [.resp ⟨true, "ready", none⟩], by simp [hping]⟩
    · by_cases hproc : cmdIs (m.get "command") "process" = true
      · refine ⟨(processCmd env s m).1, (processCmd env s m).2, ?_⟩
        simp [hping, hks, hproc]
      · exact ⟨s, [.resp ⟨false, "未対応のコマンドです: " ++ pyShow (m.get "command"), none⟩],
          by simp [hping, hks, hproc]⟩

lemma runLoop_cons (env : Env) (s : WState) (l : InLine) (ls : List InLine) :
    runLoop env s (l :: ls) =
      match stepLine env s l with
      | (s', evs, .next) =>
        ⟨(runLoop env s' ls).finalState, evs ++ (runLoop env s' ls).events,
         (runLoop env s' ls).leftover, (runLoop env s' ls).crashed⟩
      | (s', evs, .stop) => ⟨s', evs, ls, none⟩
      | (s', evs, .crash e) => ⟨s', evs, ls, some e⟩ := by
  rw [runLoop]

/-- Lines that keep the loop alive are consumed transparently: the run on
`pre ++ rest` continues as a run on `rest` from some intermediate state,
with the events of `pre` prepended. -/
lemma runLoop_through (env : Env) (pre : List InLine) :
    ∀ s : WState, (∀ l ∈ pre, keepsLooping l = true) → ∀ rest : List InLine,
    ∃ s' evs, runLoop env s (pre ++ rest) =
      ⟨(runLoop env s' rest).finalState, evs ++ (runLoop env s' rest).events,
       (runLoop env s' rest).leftover, (runLoop env s' rest).crashed⟩ := by
  induction pre with
  | nil =>
    intro s _ rest
    exact ⟨s, [], by simp⟩
  | cons l pre ih =>
    intro s hall rest
    obtain ⟨s1, evs1, hstep⟩ := @stepLine_keeps env s l (hall l (by simp))
    obtain ⟨s', evs', hrest⟩ := ih s1 (fun x hx => hall x (by simp [hx])) rest
    refine ⟨s', evs1 ++ evs', ?_⟩
    show runLoop env s (l :: (pre ++ rest)) = _
    rw [runLoop_cons, hstep]
    simp only [hrest, List.append_assoc]

/-! ## Claim theorems -/

/-- C1: for every `process` command, any exception raised inside the Process
Procedure (validation, lazy import, model build, inference, or output
writing) is caught at its boundary and converted into exactly one Response
`{status: error, message: str(exc), traceback: format_exc()}`, the loop
proceeds to the next line, and on normal completion exactly the single
`ok/done` Response is emitted; no exception inside the Process Procedure
ever terminates the loop. -/
theorem process_boundary_catches_all (env : Env) (s : WState) (m : Msg)
    (hc : cmdIs (m.get "command") "process" = true) :
    (stepLine env s (.obj m)).2.2 = Ctl.next ∧
    (∀ e, (processInner env s m).2.2 = some e →
      responsesOf (stepLine env s (.obj m)).2.1 =
        [⟨false, e.msg, some (tracebackOf e)⟩]) ∧
    ((processInner env s m).2.2 = none →
      responsesOf (stepLine env s (.obj m)).2.1 = [⟨true, "done", none⟩]) := by
  have hstep := @stepLine_process env s m hc
  have hresps := processInner_resps env s m
  refine ⟨by rw [hstep], ?_, ?_⟩
  · intro e he
    rw [hstep]
    show responsesOf (processCmd env s m).2 = _
    unfold processCmd
    rcases hP : processInner env s m with ⟨s', evs, oe⟩
    have hoe : oe = some e := by
      have h := he
      rw [hP] at h
      exact h
    subst hoe
    have h0 : responsesOf evs = [] := by
      have h := hresps.1 e he
      rw [hP] at h
      exact h
    simp [responsesOf_append, h0, responsesOf_single]
  · intro he
    rw [hstep]
    show responsesOf (processCmd env s m).2 = _
    unfold processCmd
    rcases hP : processInner env s m with ⟨s', evs, oe⟩
    have hoe : oe = none := by
      have h := he
      rw [hP] at h
      exact h
    subst hoe
    have h0 : responsesOf evs = [⟨true, "done", none⟩] := by
      have h := hresps.2 he
      rw [hP] at h
      exact h
    simpa using h0

/-- A `process` command object with no further fields, used to instantiate
the boundary theorem at a concrete input (its validation step raises). -/
def bareProc : Msg := [("command", .jstr "process")]

/-- Witness for C1 at a concrete input. -/
theorem process_boundary_catches_all_witness :
    (stepLine okEnv initState (.obj bareProc)).2.2 = Ctl.next :=
  (process_boundary_catches_all okEnv initState bareProc (by decide)).1

/-- C5 counterexample: with a protocol-input stream lacking the reconfigure
capability (diagnostic and captured protocol-output streams both supporting
it), startup does not treat the reconfiguration as a no-op: it raises, the
worker exits with status 1, emits no response, and reads no line — refuting
the claim that startup never fails for any combination of stream
capabilities. -/
theorem startup_fails_without_stdin_reconfigure :
    runWorker okEnv ⟨false⟩ ⟨true⟩ ⟨true⟩ [.obj pingMsg] = ([], [.obj pingMsg], 1) := by
  rfl

/-- C5 amended: the missing-reconfigure tolerance exists only for the
captured protocol-output stream (`_original_stdout`, guarded by `hasattr`):
startup succeeds exactly when the protocol-input and diagnostic streams both
support reconfiguration — whatever the captured stream supports — and when
the protocol-input stream does not, the process exits 1 with no responses
before reading any line. -/
theorem startup_reconfigure_tolerance (a b c : StreamCaps) :
    (startupReconfig a b c = none ↔ (a.hasReconfigure && b.hasReconfigure) = true) ∧
    (∀ env lines, a.hasReconfigure = false →
      runWorker env a b c lines = ([], lines, 1)) := by
  constructor
  · cases ha : a.hasReconfigure <;> cases hb : b.hasReconfigure <;>
      simp [startupReconfig, ha, hb]
  · intro env lines ha
    unfold runWorker mainRun startupReconfig
    simp [ha]

/-- Witness for C5 amended: both unguarded streams support reconfiguration,
the guarded one does not, and startup proceeds. -/
theorem startup_reconfigure_tolerance_witness :
    startupReconfig ⟨true⟩ ⟨true⟩ ⟨false⟩ = none :=
  (startup_reconfigure_tolerance ⟨true⟩ ⟨true⟩ ⟨false⟩).1.mpr (by decide)

/-- A collaborator whose `build_model` accepts named parameters but whose
body raises `TypeError` itself. -/
def tyErrBuild : Audiosr where
  acceptsNamed := true
  build_model := fun _ _ => .error ⟨.typeError, "boom"⟩
  super_resolution := fun _ _ _ => .ok .retNone

/-- C6 counterexample: the claim says a failure raised from inside a
signature-compatible build propagates without a positional retry; here the
named call shape is accepted, the body raises `TypeError`, and `load_model`
nevertheless retries positionally — the events record two body
invocations (named, then positional). -/
theorem named_body_typeerror_retries :
    load_model tyErrBuild (.jstr "basic") (.jstr "cuda") =
      ([.buildRun (.jstr "basic") (.jstr "cuda") false,
        .buildRun (.jstr "basic") (.jstr "cuda") true],
       .error ⟨.typeError, "boom"⟩) := rfl

/-- C6 amended: `load_model` retries with the positional call shape exactly
when the named call raises `TypeError` — whether because the signature
rejects named parameters or because the body itself raises `TypeError` —
and any non-`TypeError` failure of a signature-compatible named build
propagates without a positional retry. -/
theorem load_model_fallback_shape (a : Audiosr) (rm rd : Jv) :
    (a.acceptsNamed = true → ∀ h, a.build_model rm rd = .ok h →
      load_model a rm rd = ([.buildRun rm rd false], .ok h)) ∧
    (a.acceptsNamed = true → ∀ e, a.build_model rm rd = .error e → e.ty = .typeError →
      load_model a rm rd =
        ([.buildRun rm rd false, .buildRun rm rd true], a.build_model rm rd)) ∧
    (a.acceptsNamed = true → ∀ e, a.build_model rm rd = .error e → e.ty ≠ .typeError →
      load_model a rm rd = ([.buildRun rm rd false], .error e)) ∧
    (a.acceptsNamed = false →
      load_model a rm rd =
        ([.buildNamedSigFail, .buildRun rm rd true], a.build_model rm rd)) := by
  refine ⟨?_, ?_, ?_, ?_⟩
  · intro ha h hb
    unfold load_model
    simp [ha, hb]
  · intro ha e hb hty
    unfold load_model
    simp [ha, hb, hty]
  · intro ha e hb hty
    unfold load_model
    simp [ha, hb, hty]
  · intro ha
    unfold load_model
    simp [ha]

/-- A collaborator whose named-compatible build raises a non-`TypeError`
failure. -/
def veBuild : Audiosr where
  acceptsNamed := true
  build_model := fun _ _ => .error ⟨.valueError, "bad"⟩
  super_resolution := fun _ _ _ => .ok .retNone

/-- Witness for C6 amended: a non-`TypeError` build failure propagates with
no positional retry. -/
theorem load_model_fallback_shape_witness :
    load_model veBuild (.jstr "m") (.jstr "d") =
      ([.buildRun (.jstr "m") (.jstr "d") false], .error ⟨.valueError, "bad"⟩) :=
  (load_model_fallback_shape veBuild (.jstr "m") (.jstr "d")).2.2.1 rfl
    ⟨.valueError, "bad"⟩ rfl (by decide)

/-- Once the audiosr module is bound, the lazy import block is a no-op. -/
lemma ensureImports_loaded {env : Env} {s : WState} (hl : s.audiosrLoaded = true) :
    ensureImports env s = (s, none) := by
  unfold ensureImports
  simp [hl]

/-- An environment whose collaborator writes the output file itself and
returns `None` from inference (variant A of the spec's interface). -/
def noneInferEnv : Env where
  audiosrImport := none
  depsImport := none
  collab :=
    { acceptsNamed := true
      build_model := fun _ _ => .ok ⟨1⟩
      super_resolution := fun _ _ _ => .ok .retNone }
  sfWrite := fun _ _ _ => none

/-- C2 counterexample: for a valid `process` command whose collaborator
returns `None` (variant A), the worker does not emit `{ok, done}` — the
unconditional tuple unpacking of the inference result raises `TypeError`,
so the command yields an error Response (and no file is written by the
worker). -/
theorem variantA_not_ok :
    responsesOf (processCmd noneInferEnv initState (mkProc "basic" "cpu" "in.wav" "out.wav")).2 =
      [⟨false, "cannot unpack non-iterable NoneType object",
        some (tracebackOf ⟨.typeError, "cannot unpack non-iterable NoneType object"⟩)⟩] ∧
    writesOf (processCmd noneInferEnv initState (mkProc "basic" "cpu" "in.wav" "out.wav")).2 =
      [] := by
  exact ⟨rfl, rfl⟩

/-- Shared core fact: on a cache hit with valid fields, the outcome of the
command is decided by how the inference result unpacks. -/
lemma processCmd_infer_cases (env : Env) (s : WState) (m : Msg)
    (h : ModelHandle) (p : Params)
    (hl : s.audiosrLoaded = true)
    (hm : truthy ((m.get "model_name").getD .jnull) = true)
    (hd : truthy ((m.get "device").getD .jnull) = true)
    (hc1 : s.model = some h)
    (hc2 : pyEqOpt s.model_name ((m.get "model_name").getD .jnull) = true)
    (hc3 : pyEqOpt s.device ((m.get "device").getD .jnull) = true)
    (hip : truthy ((m.get "input").getD .jnull) = true)
    (hop : truthy ((m.get "output").getD .jnull) = true)
    (hkw : assembleKwargs m = .ok p) :
    (env.collab.super_resolution h ((m.get "input").getD .jnull) p = .ok .retNone →
      responsesOf (processCmd env s m).2 =
        [⟨false, "cannot unpack non-iterable NoneType object",
          some (tracebackOf ⟨.typeError, "cannot unpack non-iterable NoneType object"⟩)⟩] ∧
      writesOf (processCmd env s m).2 = []) ∧
    (∀ sr w, env.collab.super_resolution h ((m.get "input").getD .jnull) p = .ok (.retPair sr w) →
      env.sfWrite ((m.get "output").getD .jnull) (writeLayout w) sr = none →
      responsesOf (processCmd env s m).2 = [⟨true, "done", none⟩] ∧
      writesOf (processCmd env s m).2 =
        [((m.get "output").getD .jnull, writeLayout w, sr)]) := by
  have hE := ensureModel_hit env hc1 hc2 hc3
  constructor
  · intro hnone
    have hW : inferAndWrite env h ((m.get "input").getD .jnull)
        ((m.get "output").getD .jnull) p =
        ([.inferRun h ((m.get "input").getD .jnull) p],
         some ⟨.typeError, "cannot unpack non-iterable NoneType object"⟩) := by
      unfold inferAndWrite
      rw [hnone]
    unfold processCmd processInner
    rw [ensureImports_loaded hl]
    simp [hm, hd, hE, hip, hop, hkw, hW, responsesOf, writesOf]
  · intro sr w hpair hwr
    have hW : inferAndWrite env h ((m.get "input").getD .jnull)
        ((m.get "output").getD .jnull) p =
        ([.inferRun h ((m.get "input").getD .jnull) p,
          .fileWrite ((m.get "output").getD .jnull) (writeLayout w) sr], none) := by
      unfold inferAndWrite
      rw [hpair]
      simp [hwr]
    unfold processCmd processInner
    rw [ensureImports_loaded hl]
    simp [hm, hd, hE, hip, hop, hkw, hW, responsesOf, writesOf]

/-- C2 amended: the Process Procedure always unpacks the inference result as
a `(sample_rate, waveform)` pair; when the collaborator returns `None`
(variant A) the unpacking raises and the command yields an error Response
with nothing persisted by the worker, and only when the collaborator
returns raw sample data (variant B) does the worker write the output file
itself and then emit `{ok, done}`. -/
theorem infer_result_unpacking (env : Env) (s : WState) (m : Msg)
    (h : ModelHandle) (p : Params)
    (hl : s.audiosrLoaded = true)
    (hm : truthy ((m.get "model_name").getD .jnull) = true)
    (hd : truthy ((m.get "device").getD .jnull) = true)
    (hc1 : s.model = some h)
    (hc2 : pyEqOpt s.model_name ((m.get "model_name").getD .jnull) = true)
    (hc3 : pyEqOpt s.device ((m.get "device").getD .jnull) = true)
    (hip : truthy ((m.get "input").getD .jnull) = true)
    (hop : truthy ((m.get "output").getD .jnull) = true)
    (hkw : assembleKwargs m = .ok p) :
    (env.collab.super_resolution h ((m.get "input").getD .jnull) p = .ok .retNone →
      responsesOf (processCmd env s m).2 =
        [⟨false, "cannot unpack non-iterable NoneType object",
          some (tracebackOf ⟨.typeError, "cannot unpack non-iterable NoneType object"⟩)⟩] ∧
      writesOf (processCmd env s m).2 = []) ∧
    (∀ sr w, env.collab.super_resolution h ((m.get "input").getD .jnull) p = .ok (.retPair sr w) →
      env.sfWrite ((m.get "output").getD .jnull) (writeLayout w) sr = none →
      responsesOf (processCmd env s m).2 = [⟨true, "done", none⟩] ∧
      writesOf (processCmd env s m).2 =
        [((m.get "output").getD .jnull, writeLayout w, sr)]) :=
  processCmd_infer_cases env s m h p hl hm hd hc1 hc2 hc3 hip hop hkw

/-- A valid cached state holding handle 7 for ("basic", "cpu"). -/
def hitState : WState :=
  ⟨true, some ⟨7⟩, some (.jstr "basic"), some (.jstr "cpu")⟩

/-- Witness for C2 amended at a concrete input. -/
theorem infer_result_unpacking_witness :
    responsesOf (processCmd noneInferEnv hitState (mkProc "basic" "cpu" "in.wav" "out.wav")).2 =
      [⟨false, "cannot unpack non-iterable NoneType object",
        some (tracebackOf ⟨.typeError, "cannot unpack non-iterable NoneType object"⟩)⟩] ∧
    writesOf (processCmd noneInferEnv hitState (mkProc "basic" "cpu" "in.wav" "out.wav")).2 =
      [] :=
  (infer_result_unpacking noneInferEnv hitState (mkProc "basic" "cpu" "in.wav" "out.wav")
    ⟨7⟩ ⟨100, 7 / 2, none⟩ rfl (by decide) (by decide) rfl (by decide) (by decide)
    (by decide) (by decide) rfl).1 rfl

/-- An environment whose collaborator returns channel-major raw samples of
shape (2, 1): two channels, one time sample. -/
def chanMajorEnv : Env where
  audiosrImport := none
  depsImport := none
  collab :=
    { acceptsNamed := true
      build_model := fun _ _ => .ok ⟨1⟩
      super_resolution := fun _ _ _ => .ok (.retPair 48000 (.twoD 2 1 true)) }
  sfWrite := fun _ _ _ => none

/-- C7 counterexample: the collaborator returns channel-major data of shape
(2, 1); since the first axis (2) is not smaller than the second (1), the
worker does not transpose, and the persisted array is still channel-major —
refuting the claim that for every returned waveform shape the persisted
layout is (time, channel). -/
theorem channel_major_square_not_transposed :
    writesOf (processCmd chanMajorEnv initState (mkProc "basic" "cpu" "in.wav" "out.wav")).2 =
      [(.jstr "out.wav", .twoD 2 1 true, 48000)] ∧
    Wave.timeMajor (.twoD 2 1 true) = false := by
  exact ⟨rfl, rfl⟩

/-- The transpose heuristic yields a (time, channel) layout whenever the
data has strictly fewer channels than time samples, whatever its returned
orientation. -/
lemma writeLayout_timeMajor {w : Wave} (hw : w.channels < w.timeLen) :
    (writeLayout w).timeMajor = true := by
  cases w with
  | oneD l => rfl
  | twoD d0 d1 f =>
    cases f with
    | true =>
      have hlt : d0 < d1 := by simpa [Wave.channels, Wave.timeLen] using hw
      simp [writeLayout, Wave.transposed, Wave.timeMajor, hlt]
    | false =>
      have hlt : d1 < d0 := by simpa [Wave.channels, Wave.timeLen] using hw
      have hnlt : ¬d0 < d1 := by omega
      simp [writeLayout, Wave.transposed, Wave.timeMajor, hnlt]

/-- C7 amended: for every `process` command where the collaborator returns
raw sample data, the worker writes an audio file at the `output` path using
the returned sample rate, persisting the array produced by the layout
normalisation (which transposes exactly when the array is 2-D with its
first axis strictly shorter than its second); consequently the persisted
layout is (time, channel) whenever the data has strictly fewer channels
than time samples — for data with at least as many channels as time
samples the heuristic gives no such guarantee. -/
theorem raw_samples_persisted (env : Env) (s : WState) (m : Msg)
    (h : ModelHandle) (p : Params) (sr : Int) (w : Wave)
    (hl : s.audiosrLoaded = true)
    (hm : truthy ((m.get "model_name").getD .jnull) = true)
    (hd : truthy ((m.get "device").getD .jnull) = true)
    (hc1 : s.model = some h)
    (hc2 : pyEqOpt s.model_name ((m.get "model_name").getD .jnull) = true)
    (hc3 : pyEqOpt s.device ((m.get "device").getD .jnull) = true)
    (hip : truthy ((m.get "input").getD .jnull) = true)
    (hop : truthy ((m.get "output").getD .jnull) = true)
    (hkw : assembleKwargs m = .ok p)
    (hpair : env.collab.super_resolution h ((m.get "input").getD .jnull) p =
      .ok (.retPair sr w))
    (hwr : env.sfWrite ((m.get "output").getD .jnull) (writeLayout w) sr = none) :
    writesOf (processCmd env s m).2 =
      [((m.get "output").getD .jnull, writeLayout w, sr)] ∧
    (∀ d0 d1 f, w = .twoD d0 d1 f →
      writeLayout w = if d0 < d1 then .twoD d1 d0 (!f) else .twoD d0 d1 f) ∧
    (w.channels < w.timeLen → (writeLayout w).timeMajor = true) := by
  refine ⟨?_, ?_, fun hw => writeLayout_timeMajor hw⟩
  · exact ((processCmd_infer_cases env s m h p hl hm hd hc1 hc2 hc3 hip hop hkw).2
      sr w hpair hwr).2
  · rintro d0 d1 f rfl
    rfl

/-- Witness for C7 amended: channel-major (1, 100) data is transposed and
persisted time-major at the output path with the returned rate. -/
theorem raw_samples_persisted_witness :
    writesOf (processCmd okEnv hitState (mkProc "basic" "cpu" "in.wav" "out.wav")).2 =
      [(.jstr "out.wav", .twoD 100 1 false, 48000)] := by
  have h := (raw_samples_persisted okEnv hitState (mkProc "basic" "cpu" "in.wav" "out.wav")
    ⟨7⟩ ⟨100, 7 / 2, none⟩ 48000 (.twoD 1 100 true) rfl (by decide) (by decide) rfl
    (by decide) (by decide) (by decide) (by decide) rfl rfl rfl).1
  exact h

/-- C8 counterexample: an input sequence containing a shutdown command,
preceded by a line that parses as JSON to a non-object value (such as the
line `42`): the dispatcher's `.get` attribute access raises outside any
handler, the process exits with status 1, no Response is emitted, and the
shutdown line is never read — refuting the claim for this sequence. -/
theorem shutdown_preempted_by_nonobject_line :
    runWorker okEnv ⟨true⟩ ⟨true⟩ ⟨true⟩ [.nonObj "int", .obj shutMsg] =
      ([], [.obj shutMsg], 1) := rfl

/-- C8 amended: for every input line sequence containing a `shutdown`
command, provided every line before it is a nonempty read that does not
parse to a non-object JSON value and is not itself a shutdown command (a
non-object JSON line crashes the dispatcher with exit status 1; a falsy
read ends the loop silently), the worker emits `{ok, shutdown}` for it,
that Response is the last Response emitted, the lines after it are never
read, and the process exits with status 0. -/
theorem shutdown_clean_exit (env : Env) (a b c : StreamCaps) (mS : Msg)
    (pre post : List InLine)
    (hin : a.hasReconfigure = true) (herr : b.hasReconfigure = true)
    (hS : cmdIs (mS.get "command") "shutdown" = true)
    (hpre : ∀ l ∈ pre, keepsLooping l = true) :
    (runWorker env a b c (pre ++ .obj mS :: post)).2.2 = 0 ∧
    (runWorker env a b c (pre ++ .obj mS :: post)).2.1 = post ∧
    (responsesOf (runWorker env a b c (pre ++ .obj mS :: post)).1).getLast? =
      some ⟨true, "shutdown", none⟩ := by
  obtain ⟨s', evs, hrun⟩ := runLoop_through env pre initState hpre (.obj mS :: post)
  have hstep := @stepLine_shutdown env s' mS hS
  have hrest : runLoop env s' (.obj mS :: post) =
      ⟨s', [.resp ⟨true, "shutdown", none⟩], post, none⟩ := by
    rw [runLoop_cons, hstep]
  rw [hrest] at hrun
  unfold runWorker mainRun startupReconfig
  simp only [hin, herr, Bool.not_true, Bool.false_eq_true, if_false, hrun]
  refine ⟨trivial, trivial, ?_⟩
  rw [responsesOf_append, responsesOf_single]
  exact List.getLast?_concat _

/-- Witness for C8 amended at a concrete input. -/
theorem shutdown_clean_exit_witness :
    (runWorker okEnv ⟨true⟩ ⟨true⟩ ⟨false⟩
      ([.obj pingMsg, .badJson "x"] ++ .obj shutMsg :: [.blank])).2.2 = 0 :=
  (shutdown_clean_exit okEnv ⟨true⟩ ⟨true⟩ ⟨false⟩ shutMsg
    [.obj pingMsg, .badJson "x"] [.blank] rfl rfl (by decide) (by decide)).1

lemma processCmd_fst (env : Env) (s : WState) (m : Msg) :
    (processCmd env s m).1 = (processInner env s m).1 := by
  unfold processCmd
  rcases hP : processInner env s m with ⟨s', evs, oe⟩
  cases oe <;> rfl

lemma processCmd_buildRuns (env : Env) (s : WState) (m : Msg) :
    buildRunsOf (processCmd env s m).2 = buildRunsOf (processInner env s m).2.1 := by
  unfold processCmd
  rcases hP : processInner env s m with ⟨s', evs, oe⟩
  cases oe with
  | none => rfl
  | some e => simp [buildRunsOf_append, buildRunsOf_resp]

lemma processCmd_inferRuns (env : Env) (s : WState) (m : Msg) :
    inferRunsOf (processCmd env s m).2 = inferRunsOf (processInner env s m).2.1 := by
  unfold processCmd
  rcases hP : processInner env s m with ⟨s', evs, oe⟩
  cases oe with
  | none => rfl
  | some e => simp [inferRunsOf_append, inferRunsOf_resp]

/-- The boundary converts a raised exception into exactly one error
response carrying the exception text and the full trace. -/
lemma processCmd_error_resps (env : Env) (s : WState) (m : Msg) {e : PyExc}
    (he : (processInner env s m).2.2 = some e) :
    responsesOf (processCmd env s m).2 = [⟨false, e.msg, some (tracebackOf e)⟩] := by
  unfold processCmd
  rcases hP : processInner env s m with ⟨s', evs, oe⟩
  have hoe : oe = some e := by
    have h := he
    rw [hP] at h
    exact h
  subst hoe
  have h0 : responsesOf evs = [] := by
    have h := (processInner_resps env s m).1 e he
    rw [hP] at h
    exact h
  simp [responsesOf_append, h0, responsesOf_single]

lemma cacheConsistent_of_fields {s s' : WState} (hs : cacheConsistent s)
    (h1 : s'.model = s.model) (h2 : s'.model_name = s.model_name)
    (h3 : s'.device = s.device) : cacheConsistent s' := by
  rcases hs with ⟨a, b, c⟩ | ⟨h, rm, rd, a, b, c⟩
  · exact Or.inl ⟨h1.trans a, h2.trans b, h3.trans c⟩
  · exact Or.inr ⟨h, rm, rd, h1.trans a, h2.trans b, h3.trans c⟩

/-- C3: the Model Cache is a single optional slot whose handle and key are
only ever updated together — every line handled from a consistent state
leaves a consistent state, the try-block body either leaves the three cache
locals untouched or installs a complete handle-plus-key triple in one step,
a failing build leaves the locals exactly as they were, and once the model
is resolved the rest of the procedure (inference, persistence) never
changes them whatever fails. -/
theorem cache_atomicity (env : Env) (s : WState) (hs : cacheConsistent s) :
    (∀ l, cacheConsistent (stepLine env s l).1) ∧
    (∀ m, ((processInner env s m).1.model = s.model ∧
           (processInner env s m).1.model_name = s.model_name ∧
           (processInner env s m).1.device = s.device) ∨
          (∃ h rm rd, (processInner env s m).1.model = some h ∧
            (processInner env s m).1.model_name = some rm ∧
            (processInner env s m).1.device = some rd)) ∧
    (∀ (s0 : WState) rm rd evs e, load_model env.collab rm rd = (evs, .error e) →
      (ensureModel env s0 rm rd).1 = s0) ∧
    (∀ m s1 s2 ev1 h,
      ensureImports env s = (s1, none) →
      (!truthy ((m.get "model_name").getD .jnull) ||
        !truthy ((m.get "device").getD .jnull)) = false →
      ensureModel env s1 ((m.get "model_name").getD .jnull)
        ((m.get "device").getD .jnull) = (s2, ev1, .ok h) →
      (processInner env s m).1 = s2) := by
  refine ⟨?_, ?_, ?_, ?_⟩
  · intro l
    cases l with
    | rawEmpty => exact hs
    | blank => exact hs
    | badJson t => exact hs
    | nonObj tn => exact hs
    | obj m =>
      by_cases hping : cmdIs (m.get "command") "ping" = true
      · have : (stepLine env s (.obj m)).1 = s := by
          unfold stepLine
          simp [hping]
        rw [this]
        exact hs
      · by_cases hshut : cmdIs (m.get "command") "shutdown" = true
        · have : (stepLine env s (.obj m)).1 = s := by
            unfold stepLine
            simp [hping, hshut]
          rw [this]
          exact hs
        · by_cases hproc : cmdIs (m.get "command") "process" = true
          · have hst : (stepLine env s (.obj m)).1 = (processInner env s m).1 := by
              rw [stepLine_process hproc]
              exact processCmd_fst env s m
            rw [hst]
            rcases processInner_state env s m with ⟨h1, h2, h3⟩ | ⟨h, rm, rd, h1, h2, h3⟩
            · exact cacheConsistent_of_fields hs h1 h2 h3
            · exact Or.inr ⟨h, rm, rd, h1, h2, h3⟩
          · have : (stepLine env s (.obj m)).1 = s := by
              unfold stepLine
              simp [hping, hshut, hproc]
            rw [this]
            exact hs
  · intro m
    exact processInner_state env s m
  · intro s0 rm rd evs e hl
    exact ensureModel_error_state hl
  · intro m s1 s2 ev1 h hI hv hE
    exact (processInner_after_model env s s1 s2 m ev1 h hI hv hE).1

/-- Witness for C3 at a concrete input. -/
theorem cache_atomicity_witness :
    cacheConsistent (stepLine okEnv initState
      (.obj (mkProc "basic" "cpu" "in.wav" "out.wav"))).1 :=
  (cache_atomicity okEnv initState (Or.inl ⟨rfl, rfl, rfl⟩)).1
    (.obj (mkProc "basic" "cpu" "in.wav" "out.wav"))

lemma runLoop_nil (env : Env) (s : WState) :
    runLoop env s [] = ⟨s, [], [], none⟩ := by
  rw [runLoop]

/-- A well-formed `process` command handled on a cache miss with a
named-compatible, successful build: the complete triple is installed and
the collaborator build body runs exactly once. -/
lemma process_install (env : Env) (s : WState) (n d i o : String) (h : ModelHandle)
    (himp1 : env.audiosrImport = none) (himp2 : env.depsImport = none)
    (hn : n ≠ "") (hd : d ≠ "")
    (hnamed : env.collab.acceptsNamed = true)
    (hb : env.collab.build_model (.jstr n) (.jstr d) = .ok h)
    (hmiss : s.model = none ∨ pyEqOpt s.model_name (.jstr n) = false ∨
      pyEqOpt s.device (.jstr d) = false) :
    (processInner env s (mkProc n d i o)).1 =
      ⟨true, some h, some (.jstr n), some (.jstr d)⟩ ∧
    buildRunsOf (processInner env s (mkProc n d i o)).2.1 = 1 := by
  have hI := ensureImports_ok s himp1 himp2
  have hL := load_model_named_ok hnamed hb
  have hmiss1 : ({s with audiosrLoaded := true} : WState).model = none ∨
      pyEqOpt ({s with audiosrLoaded := true} : WState).model_name (.jstr n) = false ∨
      pyEqOpt ({s with audiosrLoaded := true} : WState).device (.jstr d) = false := hmiss
  have hE := ensureModel_miss_ok env hmiss1 hL
  have htn : truthy (.jstr n) = true := (truthy_jstr n).mpr hn
  have htd : truthy (.jstr d) = true := (truthy_jstr d).mpr hd
  have hv : (!truthy (((mkProc n d i o).get "model_name").getD .jnull) ||
      !truthy (((mkProc n d i o).get "device").getD .jnull)) = false := by
    show (!truthy (.jstr n) || !truthy (.jstr d)) = false
    rw [htn, htd]
    rfl
  have hAM := processInner_after_model env s ({s with audiosrLoaded := true}) _
    (mkProc n d i o) _ h hI hv hE
  refine ⟨hAM.1, ?_⟩
  rw [hAM.2]
  rfl

/-- A well-formed `process` command handled on a cache hit: the locals keep
their values (the module flag aside) and no build runs. -/
lemma process_hit (env : Env) (s : WState) (n d i o : String) (h : ModelHandle)
    (himp1 : env.audiosrImport = none) (himp2 : env.depsImport = none)
    (hn : n ≠ "") (hd : d ≠ "")
    (hcache : s.model = some h)
    (hk1 : pyEqOpt s.model_name (.jstr n) = true)
    (hk2 : pyEqOpt s.device (.jstr d) = true) :
    (processInner env s (mkProc n d i o)).1 = {s with audiosrLoaded := true} ∧
    buildRunsOf (processInner env s (mkProc n d i o)).2.1 = 0 := by
  have hI := ensureImports_ok s himp1 himp2
  have hcache1 : ({s with audiosrLoaded := true} : WState).model = some h := hcache
  have hk1a : pyEqOpt ({s with audiosrLoaded := true} : WState).model_name (.jstr n) = true := hk1
  have hk2a : pyEqOpt ({s with audiosrLoaded := true} : WState).device (.jstr d) = true := hk2
  have hE := ensureModel_hit env hcache1 hk1a hk2a
  have htn : truthy (.jstr n) = true := (truthy_jstr n).mpr hn
  have htd : truthy (.jstr d) = true := (truthy_jstr d).mpr hd
  have hv : (!truthy (((mkProc n d i o).get "model_name").getD .jnull) ||
      !truthy (((mkProc n d i o).get "device").getD .jnull)) = false := by
    show (!truthy (.jstr n) || !truthy (.jstr d)) = false
    rw [htn, htd]
    rfl
  have hAM := processInner_after_model env s ({s with audiosrLoaded := true}) _
    (mkProc n d i o) _ h hI hv hE
  exact ⟨hAM.1, hAM.2⟩

/-- C4: two `process` commands with identical (model_name, device) trigger
exactly one collaborator build invocation (the second is a cache hit),
while two `process` commands with different `device` values trigger exactly
two, the second of which completely replaces the cached handle and key. -/
theorem build_once_then_replace (env : Env) (n d d2 i o : String) (h h2 : ModelHandle)
    (himp1 : env.audiosrImport = none) (himp2 : env.depsImport = none)
    (hn : n ≠ "") (hd : d ≠ "") (hd2 : d2 ≠ "")
    (hnamed : env.collab.acceptsNamed = true)
    (hb1 : env.collab.build_model (.jstr n) (.jstr d) = .ok h)
    (hb2 : env.collab.build_model (.jstr n) (.jstr d2) = .ok h2)
    (hdd : d ≠ d2) :
    buildRunsOf (runLoop env initState
      [.obj (mkProc n d i o), .obj (mkProc n d i o)]).events = 1 ∧
    buildRunsOf (runLoop env initState
      [.obj (mkProc n d i o), .obj (mkProc n d2 i o)]).events = 2 ∧
    (runLoop env initState [.obj (mkProc n d i o), .obj (mkProc n d2 i o)]).finalState =
      ⟨true, some h2, some (.jstr n), some (.jstr d2)⟩ := by
  have hc1 : cmdIs ((mkProc n d i o).get "command") "process" = true := rfl
  have hc2 : cmdIs ((mkProc n d2 i o).get "command") "process" = true := rfl
  have hfirst := process_install env initState n d i o h himp1 himp2 hn hd hnamed hb1
    (Or.inl rfl)
  set st1 : WState := ⟨true, some h, some (.jstr n), some (.jstr d)⟩ with hst1
  have hkeep1 : pyEqOpt st1.model_name (.jstr n) = true := by
    simp [hst1, pyEqOpt, pyEq, numVal]
  have hkeep2 : pyEqOpt st1.device (.jstr d) = true := by
    simp [hst1, pyEqOpt, pyEq, numVal]
  have hmiss2 : pyEqOpt st1.device (.jstr d2) = false := by
    simp [hst1, pyEqOpt, pyEq, numVal, hdd]
  have hsecond_hit := process_hit env st1 n d i o h himp1 himp2 hn hd rfl hkeep1 hkeep2
  have hsecond_rep := process_install env st1 n d2 i o h2 himp1 himp2 hn hd2 hnamed hb2
    (Or.inr (Or.inr hmiss2))
  have hrun1 : ∀ m2 : Msg, cmdIs (m2.get "command") "process" = true →
      runLoop env initState [.obj (mkProc n d i o), .obj m2] =
        ⟨(processInner env st1 m2).1,
         (processCmd env initState (mkProc n d i o)).2 ++ (processCmd env st1 m2).2,
         [], none⟩ := by
    intro m2 hcm2
    rw [runLoop_cons, stepLine_process hc1, processCmd_fst, hfirst.1]
    simp only []
    rw [runLoop_cons, stepLine_process hcm2, processCmd_fst]
    simp only []
    rw [runLoop_nil]
    simp
  constructor
  · rw [hrun1 (mkProc n d i o) hc1, buildRunsOf_append,
      processCmd_buildRuns, processCmd_buildRuns, hfirst.2, hsecond_hit.2]
  constructor
  · rw [hrun1 (mkProc n d2 i o) hc2, buildRunsOf_append,
      processCmd_buildRuns, processCmd_buildRuns, hfirst.2, hsecond_rep.2]
  · rw [hrun1 (mkProc n d2 i o) hc2]
    exact hsecond_rep.1

/-- Witness for C4 at a concrete input. -/
theorem build_once_then_replace_witness :
    buildRunsOf (runLoop okEnv initState
      [.obj (mkProc "basic" "cpu" "in.wav" "out.wav"),
       .obj (mkProc "basic" "cpu" "in.wav" "out.wav")]).events = 1 :=
  (build_once_then_replace okEnv "basic" "cpu" "cuda" "in.wav" "out.wav" ⟨1⟩ ⟨1⟩
    rfl rfl (by decide) (by decide) (by decide) rfl rfl rfl (by decide)).1

/-- C9: the inference parameters are assembled as `ddim_steps` coerced to
integer with default 100, `guidance_scale` coerced to float with default
3.5, and `seed` coerced to integer and included only when the command
contains a `seed` field; every recorded inference invocation carries
exactly the assembled record; and if any coercion fails the command yields
one reported error Response and inference is never invoked. -/
theorem kwargs_assembly (env : Env) (s : WState) (m : Msg) :
    (∀ p, assembleKwargs m = .ok p →
      pyToInt (m.getD "ddim_steps" (.jint 100)) = .ok p.ddim_steps ∧
      pyToFloat (m.getD "guidance_scale" (.jfloat (7 / 2))) = .ok p.guidance_scale ∧
      (m.get "ddim_steps" = none → p.ddim_steps = 100) ∧
      (m.get "guidance_scale" = none → p.guidance_scale = 7 / 2) ∧
      (m.get "seed" = none → p.seed = none) ∧
      (∀ v, m.get "seed" = some v → ∃ k, pyToInt v = .ok k ∧ p.seed = some k)) ∧
    (∀ h ip p, Event.inferRun h ip p ∈ (processCmd env s m).2 →
      assembleKwargs m = .ok p) ∧
    (∀ e, assembleKwargs m = .error e →
      inferRunsOf (processCmd env s m).2 = 0 ∧
      ∃ e2, responsesOf (processCmd env s m).2 =
        [⟨false, e2.msg, some (tracebackOf e2)⟩]) := by
  refine ⟨?_, ?_, ?_⟩
  · intro p hp
    unfold assembleKwargs at hp
    cases hd0 : pyToInt (m.getD "ddim_steps" (.jint 100)) with
    | error e => rw [hd0] at hp; simp [Bind.bind, Except.bind] at hp
    | ok dv =>
      rw [hd0] at hp
      simp only [Bind.bind, Except.bind] at hp
      cases hg0 : pyToFloat (m.getD "guidance_scale" (.jfloat (7 / 2))) with
      | error e => rw [hg0] at hp; simp [Bind.bind, Except.bind] at hp
      | ok gv =>
        rw [hg0] at hp
        simp only [Bind.bind, Except.bind] at hp
        cases hs0 : m.get "seed" with
        | none =>
          rw [hs0] at hp
          simp only [pure, Except.pure] at hp
          cases hp
          refine ⟨rfl, rfl, ?_, ?_, fun _ => rfl, ?_⟩
          · intro hnone
            have hgd : m.getD "ddim_steps" (.jint 100) = .jint 100 := by
              unfold Msg.getD
              rw [hnone]
              rfl
            rw [hgd] at hd0
            have h100 : dv = 100 := by
              have hx := hd0
              simp [pyToInt] at hx
              omega
            simpa using h100
          · intro hnone
            have hgd : m.getD "guidance_scale" (.jfloat (7 / 2)) = .jfloat (7 / 2) := by
              unfold Msg.getD
              rw [hnone]
              rfl
            rw [hgd] at hg0
            have hgv : gv = 7 / 2 := by
              have hx := hg0
              simp [pyToFloat] at hx
              exact hx.symm
            simpa using hgv
          · intro v hv
            simp at hv
        | some v =>
          rw [hs0] at hp
          simp only [Bind.bind, Except.bind] at hp
          cases hsd : pyToInt v with
          | error e => rw [hsd] at hp; simp [Bind.bind, Except.bind] at hp
          | ok k =>
            rw [hsd] at hp
            simp only [pure, Except.pure] at hp
            cases hp
            refine ⟨rfl, rfl, ?_, ?_, ?_, ?_⟩
            · intro hnone
              have hgd : m.getD "ddim_steps" (.jint 100) = .jint 100 := by
                unfold Msg.getD
                rw [hnone]
                rfl
              rw [hgd] at hd0
              have h100 : dv = 100 := by
                have hx := hd0
                simp [pyToInt] at hx
                omega
              simpa using h100
            · intro hnone
              have hgd : m.getD "guidance_scale" (.jfloat (7 / 2)) = .jfloat (7 / 2) := by
                unfold Msg.getD
                rw [hnone]
                rfl
              rw [hgd] at hg0
              have hgv : gv = 7 / 2 := by
                have hx := hg0
                simp [pyToFloat] at hx
                exact hx.symm
              simpa using hgv
            · intro hnone
              simp at hnone
            · intro v2 hv2
              cases hv2
              exact ⟨k, hsd, rfl⟩
  · intro h ip p hm
    have hmem : Event.inferRun h ip p ∈ (processInner env s m).2.1 := by
      unfold processCmd at hm
      rcases hP : processInner env s m with ⟨s', evs, oe⟩
      rw [hP] at hm
      cases oe with
      | none => simpa using hm
      | some e =>
        simp at hm
        simpa using hm
    exact processInner_inferRun env s m hmem
  · intro e hK
    have hke := processInner_kwargs_error env s m hK
    refine ⟨?_, ?_⟩
    · rw [processCmd_inferRuns]
      exact hke.2
    · obtain ⟨e2, he2⟩ := Option.ne_none_iff_exists'.mp hke.1
      exact ⟨e2, processCmd_error_resps env s m he2⟩

/-- Witness for C9: the conjunct hypotheses are dischargeable at a concrete
command (here one whose `ddim_steps` is JSON null, so the integer coercion
raises and no inference happens). -/
theorem kwargs_assembly_witness :
    inferRunsOf (processCmd okEnv initState
      [("command", .jstr "process"), ("model_name", .jstr "basic"),
       ("device", .jstr "cpu"), ("input", .jstr "a"), ("output", .jstr "b"),
       ("ddim_steps", .jnull)]).2 = 0 :=
  ((kwargs_assembly okEnv initState
    [("command", .jstr "process"), ("model_name", .jstr "basic"),
     ("device", .jstr "cpu"), ("input", .jstr "a"), ("output", .jstr "b"),
     ("ddim_steps", .jnull)]).2.2
    ⟨.typeError, "int() argument must be a string, a bytes-like object or a real number, not NoneType"⟩
    (by decide)).1

/-- When the path check fails after a successful cache-miss build, the body
raises the path ValueError with the cache already rebuilt. -/
lemma processInner_path_missing (env : Env) (s s1 s2 : WState) (m : Msg)
    (ev1 : List Event) (h : ModelHandle)
    (hI : ensureImports env s = (s1, none))
    (hv : (!truthy ((m.get "model_name").getD .jnull) ||
      !truthy ((m.get "device").getD .jnull)) = false)
    (hE : ensureModel env s1 ((m.get "model_name").getD .jnull)
      ((m.get "device").getD .jnull) = (s2, ev1, .ok h))
    (hpath : (!truthy ((m.get "input").getD .jnull) ||
      !truthy ((m.get "output").getD .jnull)) = true) :
    processInner env s m =
      (s2, ev1, some ⟨.valueError, "input または output が指定されていません"⟩) := by
  unfold processInner
  rw [hI]
  simp [hv, hE, hpath]

/-- C10: for a `process` command whose model_name and device are present
and truthy but whose input or output is missing or empty, the worker still
performs the cache comparison and, on a miss, builds and installs a new
complete triple before the path check raises; the command yields the
missing-path error Response, inference is never invoked, and the cache has
been mutated by the failed command. -/
theorem path_missing_still_builds (env : Env) (s : WState) (m : Msg)
    (h : ModelHandle) (evs : List Event)
    (himp1 : env.audiosrImport = none) (himp2 : env.depsImport = none)
    (hm : truthy ((m.get "model_name").getD .jnull) = true)
    (hd : truthy ((m.get "device").getD .jnull) = true)
    (hmiss : s.model = none ∨
      pyEqOpt s.model_name ((m.get "model_name").getD .jnull) = false ∨
      pyEqOpt s.device ((m.get "device").getD .jnull) = false)
    (hbuild : load_model env.collab ((m.get "model_name").getD .jnull)
      ((m.get "device").getD .jnull) = (evs, .ok h))
    (hpath : (!truthy ((m.get "input").getD .jnull) ||
      !truthy ((m.get "output").getD .jnull)) = true) :
    (processCmd env s m).1 =
      ⟨true, some h, some ((m.get "model_name").getD .jnull),
       some ((m.get "device").getD .jnull)⟩ ∧
    responsesOf (processCmd env s m).2 =
      [⟨false, "input または output が指定されていません",
        some (tracebackOf ⟨.valueError, "input または output が指定されていません"⟩)⟩] ∧
    inferRunsOf (processCmd env s m).2 = 0 := by
  have hI := ensureImports_ok s himp1 himp2
  have hmiss1 : ({s with audiosrLoaded := true} : WState).model = none ∨
      pyEqOpt ({s with audiosrLoaded := true} : WState).model_name
        ((m.get "model_name").getD .jnull) = false ∨
      pyEqOpt ({s with audiosrLoaded := true} : WState).device
        ((m.get "device").getD .jnull) = false := hmiss
  have hE := ensureModel_miss_ok env hmiss1 hbuild
  have hv : (!truthy ((m.get "model_name").getD .jnull) ||
      !truthy ((m.get "device").getD .jnull)) = false := by
    rw [hm, hd]
    rfl
  have hP := processInner_path_missing env s ({s with audiosrLoaded := true}) _ m evs h
    hI hv hE hpath
  refine ⟨?_, ?_, ?_⟩
  · rw [processCmd_fst, hP]
  · exact processCmd_error_resps env s m (by rw [hP])
  · rw [processCmd_inferRuns, hP]
    have := load_model_events env.collab ((m.get "model_name").getD .jnull)
      ((m.get "device").getD .jnull)
    rw [hbuild] at this
    exact this.2.1

/-- Witness for C10 at a concrete input: a `process` command with valid
model fields and no `input`/`output` mutates the cache and errors. -/
theorem path_missing_still_builds_witness :
    (processCmd okEnv initState
      [("command", .jstr "process"), ("model_name", .jstr "basic"),
       ("device", .jstr "cpu")]).1 =
      ⟨true, some ⟨1⟩, some (.jstr "basic"), some (.jstr "cpu")⟩ :=
  (path_missing_still_builds okEnv initState
    [("command", .jstr "process"), ("model_name", .jstr "basic"),
     ("device", .jstr "cpu")] ⟨1⟩
    [.buildRun (.jstr "basic") (.jstr "cpu") false]
    rfl rfl (by decide) (by decide) (Or.inl rfl) rfl (by decide)).1

end AudiosrWorker
